import Mathlib

/-!
Verification of the chunked downloader in `src/huggingface.rs` of the
`model_manager` repository.  Pure functions are translated directly; the
retry loop of the spawned chunk task is modelled by explicit recursion on
the retry counter, with the per-attempt network outcome and the
non-blocking FailureGate acquisition supplied as oracles; the random
jitter of the backoff is an explicit parameter.
-/

namespace ModelManager

/-- Constant `BASE_WAIT_TIME` (huggingface.rs line 12). -/
def BASE_WAIT_TIME : Nat := 300

/-- Constant `MAX_WAIT_TIME` (huggingface.rs line 13). -/
def MAX_WAIT_TIME : Nat := 10000

/-- `exponential_backoff` (huggingface.rs lines 209-211):
`(base_wait_time + n.pow(2) + jitter()).min(max)`.  The random jitter
(`thread_rng().gen_range(0..=500)`, lines 213-215) is passed explicitly. -/
def exponential_backoff (base_wait_time n max jitter : Nat) : Nat :=
  min (base_wait_time + n ^ 2 + jitter) max

/-- Pre-flight validation of `download` (huggingface.rs lines 24-33):
reject `parallel_failures > max_files`, and reject exactly one of
`parallel_failures`, `max_retries` being zero. -/
def validate (max_files parallel_failures max_retries : Nat) : Except String Unit :=
  if parallel_failures > max_files then
    Except.error "Error parallel_failures cannot be > max_files"
  else if (parallel_failures == 0) != (max_retries == 0) then
    Except.error "For retry mechanism you need to set both `parallel_failures` and `max_retries`"
  else Except.ok ()

/-- Error path of `download` (huggingface.rs lines 49-63): when
`download_async` returned an `Err`, remove the destination file if it
exists (the io error payload of a failed `remove_file` is abstracted).
Inputs: the async result, whether the destination file exists, whether
`remove_file` succeeds.  Output: the final result paired with whether the
file remains on disk afterwards. -/
def download_finalize (asyncResult : Except String Unit)
    (fileExists removeOk : Bool) : Except String Unit × Bool :=
  match asyncResult with
  | Except.ok _ => (Except.ok (), fileExists)
  | Except.error err =>
    if fileExists then
      if removeOk then (Except.error err, false)
      else (Except.error "Error while removing corrupted file", true)
    else (Except.error err, false)

/-- The fields of the probe response that the length probe inspects:
`response.content_length()` and the `Content-Range` header value. -/
structure ProbeResponse where
  content_length : Option Nat
  content_range : Option String

/-- Length probe of `download_async` (huggingface.rs lines 90-114):
require `content_length()` (line 97, error "No content length"), then the
`CONTENT_RANGE` header (lines 99-102, same error message), split it on
`/`, take the last token and parse it as the total length. -/
def probe_length (r : ProbeResponse) : Except String Nat :=
  match r.content_length with
  | none => Except.error "No content length"
  | some _ =>
    match r.content_range with
    | none => Except.error "No content length"
    | some content_range =>
      match (content_range.splitOn "/").getLast? with
      | none => Except.error "Error while downloading: No size was detected"
      | some s =>
        match s.toNat? with
        | none => Except.error "Error while downloading: invalid number"
        | some length => Except.ok length

/-- The start offsets produced by `(0..length).step_by(cs)` from a given
`start`, for a positive step `cs` (huggingface.rs line 121). -/
def stepByFrom (length cs start : Nat) : List Nat :=
  if _h : 0 < cs ∧ start < length then start :: stepByFrom length cs (start + cs)
  else []
termination_by length - start
decreasing_by omega

/-- `(0..length).step_by(chunk_size)` (huggingface.rs line 121).  Rust's
`step_by` panics when the step is `0`; the panic is modelled as `none`. -/
def stepBy (length chunk_size : Nat) : Option (List Nat) :=
  if chunk_size = 0 then none else some (stepByFrom length chunk_size 0)

/-- `stop = std::cmp::min(start + chunk_size - 1, length)`
(huggingface.rs line 127). -/
def chunkStop (length chunk_size start : Nat) : Nat :=
  min (start + chunk_size - 1) length

/-- The `(start, stop)` ranges planned by the chunk loop of
`download_async` (huggingface.rs lines 121-127); `none` models the
`step_by(0)` panic. -/
def planChunks (length chunk_size : Nat) : Option (List (Nat × Nat)) :=
  (stepBy length chunk_size).map
    (fun starts => starts.map (fun start => (start, chunkStop length chunk_size start)))

/-- Outcome of one spawned chunk task, separating the distinct `Err`
construction sites of huggingface.rs lines 134-160: success, the
"Failed after too many retries" error (lines 140-142), the
"Failed too many failures in parallel" error of a failed non-blocking
`try_acquire_owned` (lines 144-148), and a raw `download_chunk` error
returned when the retry loop is disabled (line 159). -/
inductive WorkerResult where
  | ok
  | retryExhausted (max_retries : Nat) (dlerr : String)
  | concurrencyLimit (dlerr : String)
  | chunkFailed (dlerr : String)
deriving DecidableEq, Repr

/-- The `while let Err(dlerr) = chunk` retry loop (huggingface.rs lines
138-156).  `attempt j` is the outcome of the `(j+1)`-th `download_chunk`
call; `permitAvail i` tells whether the non-blocking FailureGate acquire
at retry counter `i` succeeds.  Returns the outcome together with the
total number of `download_chunk` calls made. -/
def chunkWorkerLoop (max_retries : Nat) (attempt : Nat → Except String Unit)
    (permitAvail : Nat → Bool) (chunk : Except String Unit) (i : Nat) :
    WorkerResult × Nat :=
  match chunk with
  | Except.ok _ => (WorkerResult.ok, i + 1)
  | Except.error dlerr =>
    if _h : max_retries ≤ i then (WorkerResult.retryExhausted max_retries dlerr, i + 1)
    else if permitAvail i then
      chunkWorkerLoop max_retries attempt permitAvail (attempt (i + 1)) (i + 1)
    else (WorkerResult.concurrencyLimit dlerr, i + 1)
termination_by max_retries + 1 - i
decreasing_by omega

/-- Body of one spawned chunk task (huggingface.rs lines 134-160): one
initial `download_chunk` call, then the retry loop only when
`parallel_failures > 0`.  Returns the outcome together with the total
number of `download_chunk` calls made. -/
def chunkWorker (parallel_failures max_retries : Nat)
    (attempt : Nat → Except String Unit) (permitAvail : Nat → Bool) :
    WorkerResult × Nat :=
  let chunk := attempt 0
  if 0 < parallel_failures then
    chunkWorkerLoop max_retries attempt permitAvail chunk 0
  else
    match chunk with
    | Except.ok _ => (WorkerResult.ok, 1)
    | Except.error e => (WorkerResult.chunkFailed e, 1)

/-- A `tokio::task::JoinError` (the task panicked or was cancelled). -/
inductive JoinError where
  | joinError
deriving DecidableEq

/-- `results.into_iter().flatten()` over
`Vec<Result<Result<(), String>, JoinError>>` (huggingface.rs line 166):
`Result`'s `IntoIterator` yields only the `Ok` payload, so `flatten`
keeps the inner results and silently drops every `Err(JoinError)` entry. -/
def flattenResults (rs : List (Except JoinError WorkerResult)) : List WorkerResult :=
  rs.filterMap (fun r => match r with
    | Except.ok v => some v
    | Except.error _ => none)

/-- `collect::<Result<(), String>>()` over the flattened iterator
(huggingface.rs line 166): `Ok` when every item is `Ok`, otherwise the
first error in order. -/
def collectResults : List WorkerResult → WorkerResult
  | [] => WorkerResult.ok
  | WorkerResult.ok :: rs => collectResults rs
  | r :: _ => r

/-- Result aggregation of `download_async` (huggingface.rs lines 163-168),
from the joined results of all spawned tasks. -/
def download_async_result (joined : List (Except JoinError WorkerResult)) : WorkerResult :=
  collectResults (flattenResults joined)

/-- The possible outcomes of the staged `download` pipeline. -/
inductive DownloadOutcome where
  | validationError (msg : String)
  | probeError (msg : String)
  | panicked
  | planned (ranges : List (Nat × Nat))
deriving DecidableEq

/-- Stage ordering of `download` / `download_async`: validation
(lines 24-33) runs before the probe request is sent (lines 90-96), the
probe result is parsed (lines 97-114) before the chunk loop plans any
range (line 121), and `step_by(0)` panics there.  The Bool records
whether the probe request was sent. -/
def download_model (max_files chunk_size parallel_failures max_retries : Nat)
    (probe : Except String Nat) : Bool × DownloadOutcome :=
  match validate max_files parallel_failures max_retries with
  | Except.error e => (false, DownloadOutcome.validationError e)
  | Except.ok _ =>
    match probe with
    | Except.error e => (true, DownloadOutcome.probeError e)
    | Except.ok length =>
      match planChunks length chunk_size with
      | none => (true, DownloadOutcome.panicked)
      | some rs => (true, DownloadOutcome.planned rs)

/-! ### Closed form of the chunk planner -/

theorem stepByFrom_closed (length cs : Nat) (hcs : 0 < cs) :
    ∀ start, stepByFrom length cs start =
      (List.range ((length - start + cs - 1) / cs)).map (fun i => start + i * cs) := by
  have key : ∀ n start, length - start ≤ n →
      stepByFrom length cs start =
        (List.range ((length - start + cs - 1) / cs)).map (fun i => start + i * cs) := by
    intro n
    induction n with
    | zero =>
      intro start h
      rw [stepByFrom, dif_neg (by omega)]
      rw [Nat.div_eq_of_lt (by omega)]
      simp
    | succ n ih =>
      intro start h
      by_cases hs : start < length
      · rw [stepByFrom, dif_pos ⟨hcs, hs⟩, ih (start + cs) (by omega)]
        have hm : (length - start + cs - 1) / cs = (length - (start + cs) + cs - 1) / cs + 1 := by
          have h1 : length - start + cs - 1 = (length - start - 1) + cs := by omega
          rw [h1, Nat.add_div_right _ hcs]
          by_cases hc : start + cs < length
          · have h2 : length - (start + cs) + cs - 1 = length - start - 1 := by omega
            rw [h2]
          · have h2 : length - (start + cs) + cs - 1 = cs - 1 := by omega
            rw [h2, Nat.div_eq_of_lt (by omega), Nat.div_eq_of_lt (by omega)]
        rw [hm, List.range_succ_eq_map]
        simp only [List.map_cons, List.map_map]
        congr 1
        · simp
        · exact List.map_congr_left (fun i _ => by
            simp only [Function.comp_apply, Nat.succ_eq_add_one]
            ring)
      · rw [stepByFrom, dif_neg (by omega)]
        rw [Nat.div_eq_of_lt (by omega)]
        simp
  exact fun start => key (length - start) start le_rfl

/-- Number of planned chunks: `ceil(length / cs)` expressed on naturals. -/
theorem planChunks_closed (length cs : Nat) (hcs : 0 < cs) :
    planChunks length cs =
      some ((List.range ((length + cs - 1) / cs)).map
        (fun i => (i * cs, min (i * cs + cs - 1) length))) := by
  unfold planChunks stepBy
  rw [if_neg (by omega), stepByFrom_closed length cs hcs 0]
  simp only [Option.map_some', Option.some.injEq, List.map_map, Nat.sub_zero]
  exact List.map_congr_left (fun i _ => by
    simp [chunkStop, Function.comp, Nat.zero_add])

/-- C1 (amended): for every `L ≥ 1` and `cs ≥ 1`, the planner's ranges have
starts `0, cs, 2·cs, … < L`, there are `ceil(L / cs)` of them, they are
contiguous, pairwise non-overlapping and ascending, every index of `[0, L)`
is covered by the range at position `b / cs`, and the final range's stop is
`min(last_start + cs - 1, L)` — which always lies between `L - 1` and `L`
(it is `L`, one past the end, whenever `cs` does not divide `L`, rather than
always `L - 1`). -/
theorem planChunks_partition (L cs : Nat) (hL : 1 ≤ L) (hcs : 1 ≤ cs) :
    ∃ rs : List (Nat × Nat), planChunks L cs = some rs ∧
      rs.length = (L + cs - 1) / cs ∧
      (∀ i (hi : i < rs.length), rs.get ⟨i, hi⟩ = (i * cs, min (i * cs + cs - 1) L)) ∧
      (∀ i (hi : i + 1 < rs.length),
        (rs.get ⟨i, by omega⟩).2 + 1 = (rs.get ⟨i + 1, hi⟩).1) ∧
      (∀ i j (hi : i < rs.length) (hj : j < rs.length), i < j →
        (rs.get ⟨i, hi⟩).2 < (rs.get ⟨j, hj⟩).1) ∧
      (∀ b, b < L → ∃ hb : b / cs < rs.length,
        (rs.get ⟨b / cs, hb⟩).1 ≤ b ∧ b ≤ (rs.get ⟨b / cs, hb⟩).2) ∧
      ∃ hne : rs ≠ [],
        (rs.getLast hne).2 = min ((rs.length - 1) * cs + cs - 1) L ∧
        L - 1 ≤ (rs.getLast hne).2 ∧ (rs.getLast hne).2 ≤ L := by
  refine ⟨_, planChunks_closed L cs hcs, ?_⟩
  set n := (L + cs - 1) / cs with hn
  have hcsn : cs * n + (L + cs - 1) % cs = L + cs - 1 := Nat.div_add_mod (L + cs - 1) cs
  have hmlt : (L + cs - 1) % cs < cs := Nat.mod_lt _ hcs
  have hcomm : n * cs = cs * n := Nat.mul_comm n cs
  have hge : L ≤ n * cs := by omega
  have hn1 : 1 ≤ n := (Nat.one_le_div_iff hcs).mpr (by omega)
  have hsub : (n - 1) * cs = n * cs - cs := by rw [Nat.sub_mul, one_mul]
  have hlast_lt : (n - 1) * cs < L := by omega
  refine ⟨by simp, ?_, ?_, ?_, ?_, ?_⟩
  · intro i hi
    simp [List.get_eq_getElem]
  · intro i hi
    simp only [List.length_map, List.length_range] at hi
    simp only [List.get_eq_getElem, List.getElem_map, List.getElem_range]
    have h1 : (i + 1) * cs ≤ (n - 1) * cs := mul_le_mul_right' (by omega) cs
    have h2 : (i + 1) * cs = i * cs + cs := Nat.succ_mul i cs
    rw [min_eq_left (by omega)]
    omega
  · intro i j hi hj hij
    simp only [List.length_map, List.length_range] at hi hj
    simp only [List.get_eq_getElem, List.getElem_map, List.getElem_range]
    have h1 : (i + 1) * cs ≤ j * cs := mul_le_mul_right' (by omega) cs
    have h2 : (i + 1) * cs = i * cs + cs := Nat.succ_mul i cs
    have h3 : min (i * cs + cs - 1) L ≤ i * cs + cs - 1 := min_le_left _ _
    omega
  · intro b hb
    have hdiv : b / cs < n := (Nat.div_lt_iff_lt_mul hcs).mpr (lt_of_lt_of_le hb hge)
    refine ⟨by simpa using hdiv, ?_, ?_⟩
    · simp only [List.get_eq_getElem, List.getElem_map, List.getElem_range]
      exact Nat.div_mul_le_self b cs
    · simp only [List.get_eq_getElem, List.getElem_map, List.getElem_range]
      have hbm : cs * (b / cs) + b % cs = b := Nat.div_add_mod b cs
      have hbm2 : b % cs < cs := Nat.mod_lt _ hcs
      have hbc : b / cs * cs = cs * (b / cs) := Nat.mul_comm _ _
      exact le_min (by omega) (by omega)
  · have hne : ((List.range n).map
        (fun i => (i * cs, min (i * cs + cs - 1) L))) ≠ [] := by
      simp only [ne_eq, List.map_eq_nil_iff, List.range_eq_nil]
      omega
    refine ⟨hne, ?_, ?_, ?_⟩
    · rw [List.getLast_eq_getElem]
      simp [List.getElem_map, List.getElem_range]
    · rw [List.getLast_eq_getElem]
      simp only [List.length_map, List.length_range, List.getElem_map, List.getElem_range]
      exact le_min (by omega) (by omega)
    · rw [List.getLast_eq_getElem]
      simp only [List.length_map, List.length_range, List.getElem_map, List.getElem_range]
      exact min_le_right _ _

/-- C1 counterexample: at length 1000 and chunk_size 400 the planner yields
ranges [(0,399), (400,799), (800,1000)] — the final stop is 1000, the total
length, not 999 = length - 1 as the claim (and its example) states. -/
theorem planChunks_1000_400 :
    planChunks 1000 400 = some [(0, 399), (400, 799), (800, 1000)] ∧
    planChunks 1000 400 ≠ some [(0, 399), (400, 799), (800, 999)] := by
  have h := planChunks_closed 1000 400 (by omega)
  rw [h]
  constructor
  · rfl
  · decide

/-- Witness for `planChunks_partition` at L = 1000, cs = 400. -/
theorem planChunks_partition_witness :
    1 ≤ 1000 ∧ 1 ≤ 400 ∧
    (∃ rs : List (Nat × Nat), planChunks 1000 400 = some rs ∧
      rs.length = (1000 + 400 - 1) / 400 ∧
      (∀ i (hi : i < rs.length), rs.get ⟨i, hi⟩ = (i * 400, min (i * 400 + 400 - 1) 1000)) ∧
      (∀ i (hi : i + 1 < rs.length),
        (rs.get ⟨i, by omega⟩).2 + 1 = (rs.get ⟨i + 1, hi⟩).1) ∧
      (∀ i j (hi : i < rs.length) (hj : j < rs.length), i < j →
        (rs.get ⟨i, hi⟩).2 < (rs.get ⟨j, hj⟩).1) ∧
      (∀ b, b < 1000 → ∃ hb : b / 400 < rs.length,
        (rs.get ⟨b / 400, hb⟩).1 ≤ b ∧ b ≤ (rs.get ⟨b / 400, hb⟩).2) ∧
      ∃ hne : rs ≠ [],
        (rs.getLast hne).2 = min ((rs.length - 1) * 400 + 400 - 1) 1000 ∧
        1000 - 1 ≤ (rs.getLast hne).2 ∧ (rs.getLast hne).2 ≤ 1000) :=
  ⟨by decide, by decide, planChunks_partition 1000 400 (by decide) (by decide)⟩

/-! ### Helper lemmas: validation, aggregation, the retry loop -/

theorem bne_zero_bridge (pf mr : Nat) :
    ((pf == 0) != (mr == 0)) = true ↔ ¬(pf = 0 ↔ mr = 0) := by
  by_cases hp : pf = 0 <;> by_cases hm : mr = 0 <;> simp [hp, hm]

theorem validate_ok_iff (mf pf mr : Nat) :
    validate mf pf mr = Except.ok () ↔ (pf ≤ mf ∧ (pf = 0 ↔ mr = 0)) := by
  unfold validate
  by_cases h1 : pf > mf
  · rw [if_pos h1]
    constructor
    · intro h; cases h
    · rintro ⟨h, -⟩; omega
  · rw [if_neg h1]
    by_cases h2 : ((pf == 0) != (mr == 0)) = true
    · rw [if_pos h2]
      rw [bne_zero_bridge] at h2
      constructor
      · intro h; cases h
      · rintro ⟨-, hiff⟩; exact absurd hiff h2
    · rw [if_neg h2]
      rw [bne_zero_bridge, not_not] at h2
      simp [h2]
      omega

theorem collectResults_all_ok :
    ∀ l : List WorkerResult, (∀ r ∈ l, r = WorkerResult.ok) →
      collectResults l = WorkerResult.ok := by
  intro l h
  induction l with
  | nil => rfl
  | cons r rs ih =>
    have hr : r = WorkerResult.ok := h r (List.mem_cons_self r rs)
    subst hr
    exact ih (fun x hx => h x (List.mem_cons_of_mem _ hx))

theorem collectResults_first_error (e : WorkerResult) (he : e ≠ WorkerResult.ok) :
    ∀ (pre post : List WorkerResult), (∀ r ∈ pre, r = WorkerResult.ok) →
      collectResults (pre ++ e :: post) = e := by
  intro pre
  induction pre with
  | nil =>
    intro post _
    cases e with
    | ok => exact absurd rfl he
    | retryExhausted n d => rfl
    | concurrencyLimit d => rfl
    | chunkFailed d => rfl
  | cons r rs ih =>
    intro post h
    have hr : r = WorkerResult.ok := h r (List.mem_cons_self r rs)
    subst hr
    rw [List.cons_append]
    show collectResults (rs ++ e :: post) = e
    exact ih post (fun x hx => h x (List.mem_cons_of_mem _ hx))

theorem chunkWorkerLoop_advance (mr : Nat) (attempt : Nat → Except String Unit)
    (permitAvail : Nat → Bool) (e : Nat → String) :
    ∀ k i, i ≤ k → k ≤ mr →
      (∀ j, i ≤ j → j < k →
        permitAvail j = true ∧ attempt (j + 1) = Except.error (e (j + 1))) →
      chunkWorkerLoop mr attempt permitAvail (Except.error (e i)) i =
        chunkWorkerLoop mr attempt permitAvail (Except.error (e k)) k := by
  intro k i hik hkm h
  obtain ⟨d, hd⟩ : ∃ d, k = i + d := ⟨k - i, by omega⟩
  subst hd
  clear hik
  revert hkm h
  revert i
  induction d with
  | zero => intro i _ _; rfl
  | succ d ih =>
    intro i hkm h
    have hstep := h i le_rfl (by omega)
    rw [chunkWorkerLoop, dif_neg (by omega), if_pos hstep.1, hstep.2]
    have hres := ih (i + 1) (by omega) (fun j hj hjk => h j (by omega) (by omega))
    have heq : i + 1 + d = i + (d + 1) := by omega
    rw [heq] at hres
    exact hres

/-! ### The claims about error handling and the retry loop -/

/-- C2 (code bug): the aggregation `results.into_iter().flatten().collect()`
silently drops `Err(JoinError)` entries, so a run in which a spawned worker's
join handle resolves to a `JoinError` (e.g. the task panicked) and every
surviving entry is `Ok` aggregates to overall success — `download_async`
returns `Ok(())` instead of surfacing the abnormal termination as an error. -/
theorem joinError_dropped :
    download_async_result [Except.error JoinError.joinError] = WorkerResult.ok ∧
    download_async_result
      [Except.ok WorkerResult.ok, Except.error JoinError.joinError,
        Except.ok WorkerResult.ok] = WorkerResult.ok :=
  ⟨rfl, rfl⟩

/-- C3 counterexample: after a fatal async result with the destination file
present and `remove_file` succeeding, the partial file does NOT remain on
disk — `download` deletes it (huggingface.rs lines 49-63), contradicting the
claim that the core performs no automatic cleanup. -/
theorem download_finalize_removes :
    download_finalize (Except.error "Error while downloading") true true
      = (Except.error "Error while downloading", false) :=
  rfl

/-- C3 (amended): when `download_async` returns a fatal error, `download`
removes the existing destination file: on successful removal the original
error is returned and the partial file is gone; only when removal itself
fails does the partial file remain (with a removal-error message); when no
file exists the original error passes through; on success nothing is
removed. -/
theorem download_finalize_spec :
    (∀ e, download_finalize (Except.error e) true true = (Except.error e, false)) ∧
    (∀ e, download_finalize (Except.error e) true false
        = (Except.error "Error while removing corrupted file", true)) ∧
    (∀ e ro, download_finalize (Except.error e) false ro = (Except.error e, false)) ∧
    (∀ fe ro, download_finalize (Except.ok ()) fe ro = (Except.ok (), fe)) :=
  ⟨fun _ => rfl, fun _ => rfl, fun _ _ => rfl, fun _ _ => rfl⟩

/-- C4: validation accepts a configuration exactly when
`parallel_failures ≤ max_files` and the two retry knobs are zero together;
`(0, 0)` passes; a validation error is produced before the probe request is
sent (no network activity, no side effects); and `parallel_failures = 0`
disables the retry loop entirely (a single `download_chunk` call decides the
outcome). -/
theorem validate_spec :
    (∀ mf pf mr, validate mf pf mr = Except.ok () ↔ (pf ≤ mf ∧ (pf = 0 ↔ mr = 0))) ∧
    (∀ mf, validate mf 0 0 = Except.ok ()) ∧
    (∀ mf cs pf mr probe e, validate mf pf mr = Except.error e →
      download_model mf cs pf mr probe = (false, DownloadOutcome.validationError e)) ∧
    (∀ mr attempt permitAvail,
      chunkWorker 0 mr attempt permitAvail =
        ((match attempt 0 with
          | Except.ok _ => WorkerResult.ok
          | Except.error e => WorkerResult.chunkFailed e), 1)) := by
  refine ⟨validate_ok_iff, fun mf => (validate_ok_iff mf 0 0).mpr ⟨by omega, by simp⟩, ?_, ?_⟩
  · intro mf cs pf mr probe e h
    simp [download_model, h]
  · intro mr attempt permitAvail
    cases h : attempt 0 <;> simp [chunkWorker, h]

/-- Witness for `validate_spec` with `parallel_failures > max_files`. -/
theorem validate_spec_witness :
    validate 5 6 1 = Except.error "Error parallel_failures cannot be > max_files" ∧
    download_model 5 100 6 1 (Except.ok 10)
      = (false,
        DownloadOutcome.validationError "Error parallel_failures cannot be > max_files") :=
  ⟨rfl, validate_spec.2.2.1 5 100 6 1 (Except.ok 10) _ rfl⟩

/-- C5: with retry enabled, when an attempt has failed, retries remain and
the non-blocking FailureGate acquire finds no permit, the worker aborts at
once with the "Failed too many failures in parallel" outcome after exactly
`k + 1` download calls (it never waits for a permit), and as the first
failure in submission order that outcome is the aggregated result of
`download_async`. -/
theorem failure_gate_abort (pf mr k : Nat) (e : Nat → String)
    (attempt : Nat → Except String Unit) (permitAvail : Nat → Bool)
    (hpf : 0 < pf) (hk : k < mr)
    (hfail : ∀ j, j ≤ k → attempt j = Except.error (e j))
    (hperm : ∀ j, j < k → permitAvail j = true)
    (hnone : permitAvail k = false) :
    chunkWorker pf mr attempt permitAvail
      = (WorkerResult.concurrencyLimit (e k), k + 1) ∧
    (∀ pre post : List WorkerResult, (∀ r ∈ pre, r = WorkerResult.ok) →
      collectResults (pre ++ WorkerResult.concurrencyLimit (e k) :: post)
        = WorkerResult.concurrencyLimit (e k)) := by
  constructor
  · simp only [chunkWorker]
    rw [if_pos hpf, hfail 0 (by omega)]
    rw [chunkWorkerLoop_advance mr attempt permitAvail e k 0 (by omega) (by omega)
      (fun j hj hjk => ⟨hperm j hjk, hfail (j + 1) (by omega)⟩)]
    rw [chunkWorkerLoop, dif_neg (by omega), if_neg (by simp [hnone])]
  · intro pre post h
    exact collectResults_first_error _ (by simp) pre post h

/-- Witness for `failure_gate_abort`: one worker, first attempt fails, no
FailureGate permit available. -/
theorem failure_gate_abort_witness :
    0 < 1 ∧ 0 < 2 ∧
    (chunkWorker 1 2 (fun _ => Except.error "boom") (fun _ => false)
        = (WorkerResult.concurrencyLimit "boom", 1) ∧
      (∀ pre post : List WorkerResult, (∀ r ∈ pre, r = WorkerResult.ok) →
        collectResults (pre ++ WorkerResult.concurrencyLimit "boom" :: post)
          = WorkerResult.concurrencyLimit "boom")) :=
  ⟨by decide, by decide,
    failure_gate_abort 1 2 0 (fun _ => "boom") (fun _ => Except.error "boom")
      (fun _ => false) (by decide) (by decide) (fun _ _ => rfl)
      (fun j hj => absurd hj (by omega)) rfl⟩

/-- C6: with retry enabled and a FailureGate permit available at every
failure, a chunk whose attempts `0 .. max_retries` all fail (more than
`max_retries` failures) ends with the "Failed after too many retries"
outcome after `max_retries + 1` download calls, and as the first failure in
submission order that outcome is the aggregated result of `download_async`. -/
theorem retry_exhausted (pf mr : Nat) (e : Nat → String)
    (attempt : Nat → Except String Unit) (permitAvail : Nat → Bool)
    (hpf : 0 < pf)
    (hfail : ∀ j, j ≤ mr → attempt j = Except.error (e j))
    (hperm : ∀ j, j < mr → permitAvail j = true) :
    chunkWorker pf mr attempt permitAvail
      = (WorkerResult.retryExhausted mr (e mr), mr + 1) ∧
    (∀ pre post : List WorkerResult, (∀ r ∈ pre, r = WorkerResult.ok) →
      collectResults (pre ++ WorkerResult.retryExhausted mr (e mr) :: post)
        = WorkerResult.retryExhausted mr (e mr)) := by
  constructor
  · simp only [chunkWorker]
    rw [if_pos hpf, hfail 0 (by omega)]
    rw [chunkWorkerLoop_advance mr attempt permitAvail e mr 0 (by omega) le_rfl
      (fun j hj hjk => ⟨hperm j hjk, hfail (j + 1) (by omega)⟩)]
    rw [chunkWorkerLoop, dif_pos le_rfl]
  · intro pre post h
    exact collectResults_first_error _ (by simp) pre post h

/-- Witness for `retry_exhausted`: max_retries = 1, both attempts fail,
permits always available. -/
theorem retry_exhausted_witness :
    0 < 1 ∧
    (chunkWorker 1 1 (fun _ => Except.error "boom") (fun _ => true)
        = (WorkerResult.retryExhausted 1 "boom", 2) ∧
      (∀ pre post : List WorkerResult, (∀ r ∈ pre, r = WorkerResult.ok) →
        collectResults (pre ++ WorkerResult.retryExhausted 1 "boom" :: post)
          = WorkerResult.retryExhausted 1 "boom")) :=
  ⟨by decide,
    retry_exhausted 1 1 (fun _ => "boom") (fun _ => Except.error "boom")
      (fun _ => true) (by decide) (fun _ _ => rfl) (fun _ _ => rfl)⟩

/-- C7: with retry enabled, a chunk whose first `k ≤ max_retries` attempts
fail (a FailureGate permit being available at each failure) and whose next
attempt succeeds ends with the success outcome and exactly `k + 1` download
calls recorded, and a run in which every worker outcome is success
aggregates to overall success. -/
theorem retry_success (pf mr k : Nat) (e : Nat → String)
    (attempt : Nat → Except String Unit) (permitAvail : Nat → Bool)
    (hpf : 0 < pf) (hk : k ≤ mr)
    (hfail : ∀ j, j < k → attempt j = Except.error (e j))
    (hsucc : attempt k = Except.ok ())
    (hperm : ∀ j, j < k → permitAvail j = true) :
    chunkWorker pf mr attempt permitAvail = (WorkerResult.ok, k + 1) ∧
    (∀ l : List WorkerResult, (∀ r ∈ l, r = WorkerResult.ok) →
      collectResults l = WorkerResult.ok) := by
  constructor
  · simp only [chunkWorker]
    rw [if_pos hpf]
    cases k with
    | zero =>
      rw [hsucc, chunkWorkerLoop]
    | succ k' =>
      rw [hfail 0 (by omega)]
      rw [chunkWorkerLoop_advance mr attempt permitAvail e k' 0 (by omega) (by omega)
        (fun j hj hjk => ⟨hperm j (by omega), hfail (j + 1) (by omega)⟩)]
      rw [chunkWorkerLoop, dif_neg (by omega), if_pos (hperm k' (by omega)), hsucc,
        chunkWorkerLoop]
  · exact collectResults_all_ok

/-- Witness for `retry_success`: k = 1 failure, success on the second
attempt, 2 download calls recorded. -/
theorem retry_success_witness :
    0 < 1 ∧ 1 ≤ 2 ∧
    (chunkWorker 1 2
        (fun j => if j = 0 then Except.error "boom" else Except.ok ())
        (fun _ => true) = (WorkerResult.ok, 2) ∧
      (∀ l : List WorkerResult, (∀ r ∈ l, r = WorkerResult.ok) →
        collectResults l = WorkerResult.ok)) :=
  ⟨by decide, by decide,
    retry_success 1 2 1 (fun _ => "boom")
      (fun j => if j = 0 then Except.error "boom" else Except.ok ())
      (fun _ => true) (by decide) (by decide)
      (fun j hj => by
        have hj0 : j = 0 := by omega
        subst hj0
        rfl) rfl (fun _ _ => rfl)⟩

/-- C8: `exponential_backoff base n max jitter` is
`min(base + n² + jitter, max)`; with the reference constants
`base = 300`, `max = 10000`, for every attempt index `n` and every jitter
`j ≤ 500` the wait lies in `[base, max]`, and with jitter fixed at 0 the
wait is non-decreasing in `n`. -/
theorem exponential_backoff_spec :
    (∀ base n mx j, exponential_backoff base n mx j = min (base + n ^ 2 + j) mx) ∧
    (∀ n j, j ≤ 500 →
      BASE_WAIT_TIME ≤ exponential_backoff BASE_WAIT_TIME n MAX_WAIT_TIME j ∧
      exponential_backoff BASE_WAIT_TIME n MAX_WAIT_TIME j ≤ MAX_WAIT_TIME) ∧
    (∀ n m, n ≤ m →
      exponential_backoff BASE_WAIT_TIME n MAX_WAIT_TIME 0 ≤
        exponential_backoff BASE_WAIT_TIME m MAX_WAIT_TIME 0) := by
  refine ⟨fun _ _ _ _ => rfl, ?_, ?_⟩
  · intro n j hj
    unfold exponential_backoff BASE_WAIT_TIME MAX_WAIT_TIME
    exact ⟨le_min (by omega) (by omega), min_le_right _ _⟩
  · intro n m hnm
    unfold exponential_backoff
    have h2 : n ^ 2 ≤ m ^ 2 := Nat.pow_le_pow_left hnm 2
    exact min_le_min (by omega) le_rfl

/-- Witness for `exponential_backoff_spec` at n = 1, jitter = 0 and the
pair (1, 2). -/
theorem exponential_backoff_spec_witness :
    (0 : Nat) ≤ 500 ∧
    (BASE_WAIT_TIME ≤ exponential_backoff BASE_WAIT_TIME 1 MAX_WAIT_TIME 0 ∧
      exponential_backoff BASE_WAIT_TIME 1 MAX_WAIT_TIME 0 ≤ MAX_WAIT_TIME) ∧
    (1 : Nat) ≤ 2 ∧
    exponential_backoff BASE_WAIT_TIME 1 MAX_WAIT_TIME 0 ≤
      exponential_backoff BASE_WAIT_TIME 2 MAX_WAIT_TIME 0 :=
  ⟨by decide, exponential_backoff_spec.2.1 1 0 (by decide), by decide,
    exponential_backoff_spec.2.2 1 2 (by decide)⟩

/-- C9: the preflight validation inspects only `parallel_failures`,
`max_files` and `max_retries` — a call with `chunk_size = 0` passes it — and
for every positive probed length the chunk loop `(0..length).step_by(0)`
then panics on the zero step, after the probe request has already been sent
(the `true` component records that the probe went out). -/
theorem chunk_size_zero_panics :
    (∀ mf pf mr, pf ≤ mf → (pf = 0 ↔ mr = 0) → validate mf pf mr = Except.ok ()) ∧
    (∀ L, 0 < L → planChunks L 0 = none) ∧
    (∀ mf pf mr L, pf ≤ mf → (pf = 0 ↔ mr = 0) → 0 < L →
      download_model mf 0 pf mr (Except.ok L) = (true, DownloadOutcome.panicked)) := by
  refine ⟨fun mf pf mr h1 h2 => (validate_ok_iff mf pf mr).mpr ⟨h1, h2⟩, ?_, ?_⟩
  · intro L _
    rfl
  · intro mf pf mr L h1 h2 hL
    have hv := (validate_ok_iff mf pf mr).mpr ⟨h1, h2⟩
    simp [download_model, hv, planChunks, stepBy]

/-- Witness for `chunk_size_zero_panics`: chunk_size 0, retry disabled,
probed length 5. -/
theorem chunk_size_zero_panics_witness :
    validate 1 0 0 = Except.ok () ∧
    planChunks 5 0 = none ∧
    download_model 1 0 0 0 (Except.ok 5) = (true, DownloadOutcome.panicked) :=
  ⟨chunk_size_zero_panics.1 1 0 0 (by decide) (by decide),
    chunk_size_zero_panics.2.1 5 (by decide),
    chunk_size_zero_panics.2.2 1 0 0 5 (by decide) (by decide) (by decide)⟩

/-- C10: a probe response lacking Content-Length makes `download_async`
fail with "No content length" even when a well-formed Content-Range header
with a parseable total is present — Content-Length is required in addition
to Content-Range and is checked first — and under a valid configuration the
pipeline stops at the probe, before any chunk is planned or fetched. -/
theorem probe_requires_content_length :
    (∀ cr : Option String,
      probe_length ⟨none, cr⟩ = Except.error "No content length") ∧
    (∀ mf cs pf mr cr, pf ≤ mf → (pf = 0 ↔ mr = 0) →
      download_model mf cs pf mr (probe_length ⟨none, cr⟩)
        = (true, DownloadOutcome.probeError "No content length")) := by
  constructor
  · intro cr
    rfl
  · intro mf cs pf mr cr h1 h2
    have hv := (validate_ok_iff mf pf mr).mpr ⟨h1, h2⟩
    simp [download_model, hv, probe_length]

/-- Witness for `probe_requires_content_length`: no Content-Length, a
well-formed Content-Range of total 702517648, valid configuration. -/
theorem probe_requires_content_length_witness :
    probe_length ⟨none, some "bytes 0-0/702517648"⟩
      = Except.error "No content length" ∧
    download_model 8 1024 2 3 (probe_length ⟨none, some "bytes 0-0/702517648"⟩)
      = (true, DownloadOutcome.probeError "No content length") :=
  ⟨probe_requires_content_length.1 (some "bytes 0-0/702517648"),
    probe_requires_content_length.2 8 1024 2 3 (some "bytes 0-0/702517648")
      (by decide) (by decide)⟩

end ModelManager
